import Mathlib

/-!
Shallow embedding of the core of the go-nakadi client library
(stoewer/go-nakadi) in Lean 4, used to settle the frozen claims about the
natural-language specification of the repository.

The definitions mirror the Go sources:
  helper.go          - decodeResponseToError and the two error envelopes
  nakadi.go          - the retried HTTP helpers (GET / PUT / POST / DELETE)
  simple_stream.go   - simpleStreamOpener.openStream, simpleStream.nextEvents,
                       simpleCommitter.commitCursor
  streams (engine)   - StreamAPI: NextEvents / Close and the startStream
                       supervising loop, modelled as an explicit transition
                       system over the bounded event channel
  publish.go         - PublishAPI.Publish and BatchItemsError
  batcher.go         - BatchPublishAPI.Publish, publishBatchToNakadi and the
                       dispatchThread loop
  processor.go       - Processor.Start / Processor.Stop

Machine integers do not overflow in any modelled code path, so counters are
Nat.  Go byte strings are modelled as String, JSON documents as an explicit
Json tree, and fallible Go functions as Except / Option results.
-/

/-- A JSON value, as far as the library's wire formats need it.  Numbers in
the modelled envelopes are integers (HTTP status codes), so `num` carries an
Int. -/
inductive Json where
  | null : Json
  | bool (b : Bool) : Json
  | num (n : Int) : Json
  | str (s : String) : Json
  | arr (elems : List Json) : Json
  | obj (fields : List (String × Json)) : Json

namespace Json

/-- Serialize a JSON string literal body (no escaping of exotic characters is
needed by any claim; quotes delimit the content). -/
def renderString (s : String) : String :=
  "\"" ++ s ++ "\""

mutual

/-- Compact rendering of a JSON value, the shape `encoding/json` produces and
the shape `string(buffer)` exposes in error fallbacks. -/
def render : Json → String
  | null => "null"
  | bool true => "true"
  | bool false => "false"
  | num n => toString n
  | str s => renderString s
  | arr elems => "[" ++ renderList elems ++ "]"
  | obj fields => "\x7b" ++ renderFields fields ++ "\x7d"

def renderList : List Json → String
  | [] => ""
  | [x] => render x
  | x :: xs => render x ++ "," ++ renderList xs

def renderFields : List (String × Json) → String
  | [] => ""
  | [(k, v)] => renderString k ++ ":" ++ render v
  | (k, v) :: xs => renderString k ++ ":" ++ render v ++ "," ++ renderFields xs

end

/-- Last occurrence of a key in an object's field list: `encoding/json`
processes keys in order and later duplicates overwrite earlier ones. -/
def lookupLast (fields : List (String × Json)) (key : String) : Option Json :=
  match fields with
  | [] => none
  | (k, v) :: rest =>
    match lookupLast rest key with
    | some w => some w
    | none => if k = key then some v else none

/-- First occurrence of a key, the semantics of `jsonparser.Get`. -/
def lookupFirst (fields : List (String × Json)) (key : String) : Option Json :=
  match fields with
  | [] => none
  | (k, v) :: rest => if k = key then some v else lookupFirst rest key

end Json

/-- A response body as handed to the decoders: either a well-formed JSON
document or malformed raw bytes.  `raw` recovers the bytes `string(buffer)`
would show. -/
inductive Body where
  | wellFormed (j : Json) : Body
  | malformed (raw : String) : Body

/-- The raw text of a body, used by the error decoder's fallback branch. -/
def Body.raw : Body → String
  | .wellFormed j => j.render
  | .malformed s => s

/-- Decode one string-typed struct field the way `encoding/json` does: an
absent key or a JSON null leaves the zero value, a JSON string is taken
verbatim, any other value type makes the whole Unmarshal fail. -/
def goFieldString (fields : List (String × Json)) (key : String) :
    Except Unit String :=
  match Json.lookupLast fields key with
  | none => .ok ""
  | some .null => .ok ""
  | some (.str s) => .ok s
  | some _ => .error ()

/-- Decode one int-typed struct field the way `encoding/json` does. -/
def goFieldInt (fields : List (String × Json)) (key : String) :
    Except Unit Int :=
  match Json.lookupLast fields key with
  | none => .ok 0
  | some .null => .ok 0
  | some (.num n) => .ok n
  | some _ => .error ()

/-- helper.go: problemJSON is used to decode error responses
(`application/problem+json`). -/
structure problemJSON where
  title : String
  detail : String
  status : Int
  type : String
deriving DecidableEq, Repr


/-- helper.go: errorJSON, the alternate broker error envelope. -/
structure errorJSON where
  error : String
  errorDescription : String
deriving DecidableEq, Repr


/-- `json.Unmarshal(buffer, &problemJSON{})`: fails on malformed bytes and on
non-object documents (other than null); unknown object keys are ignored and
absent keys keep zero values, exactly as `encoding/json` behaves. -/
def goUnmarshalProblemJSON : Body → Except Unit problemJSON
  | .malformed _ => .error ()
  | .wellFormed .null => .ok ⟨"", "", 0, ""⟩
  | .wellFormed (.obj fields) => do
    let title ← goFieldString fields "title"
    let detail ← goFieldString fields "detail"
    let status ← goFieldInt fields "status"
    let type ← goFieldString fields "type"
    .ok ⟨title, detail, status, type⟩
  | .wellFormed _ => .error ()

/-- `json.Unmarshal(buffer, &errorJSON{})` with the same Go semantics. -/
def goUnmarshalErrorJSON : Body → Except Unit errorJSON
  | .malformed _ => .error ()
  | .wellFormed .null => .ok ⟨"", ""⟩
  | .wellFormed (.obj fields) => do
    let error ← goFieldString fields "error"
    let errorDescription ← goFieldString fields "error_description"
    .ok ⟨error, errorDescription⟩
  | .wellFormed _ => .error ()

/-- helper.go decodeResponseToError: try problemJSON, then errorJSON, then
fall back to an error carrying the raw body.  The result models the message
of the returned error. -/
def decodeResponseToError (buffer : Body) (msg : String) : String :=
  match goUnmarshalProblemJSON buffer with
  | .ok problem => msg ++ ": " ++ problem.detail
  | .error _ =>
    match goUnmarshalErrorJSON buffer with
    | .ok errJSON => msg ++ ": " ++ errJSON.errorDescription
    | .error _ => msg ++ ": " ++ buffer.raw

/-! ## HTTP request core (nakadi.go) -/

/-- An HTTP response as the helpers observe it: status code, headers, and the
result of reading the body (`ioutil.ReadAll` can fail). -/
structure HttpResponse where
  statusCode : Nat
  headers : List (String × String)
  bodyRead : Except String Body

/-- `response.Header.Get(key)`: first value for the key, or the empty
string. -/
def headerGet (headers : List (String × String)) (key : String) : String :=
  match headers with
  | [] => ""
  | (k, v) :: rest => if k = key then v else headerGet rest key

/-- `request.Header.Set(key, value)`: replace any existing value. -/
def headerSet (headers : List (String × String)) (key value : String) :
    List (String × String) :=
  (key, value) :: headers.filter (fun kv => kv.1 ≠ key)

/-- An outgoing HTTP request at the moment `httpClient.Do` receives it. -/
structure HttpRequest where
  method : String
  url : String
  headers : List (String × String)
  body : String

/-- The environment one retry attempt runs in: whether `http.NewRequest`
fails, what a configured token provider returns (`none` when no provider is
configured), and what `httpClient.Do` returns. -/
structure AttemptEnv where
  newRequestErr : Option String
  tokenProvider : Option (Except String String)
  doResult : Except String HttpResponse

/-- How one attempt inside `backoff.Retry` ends: a `backoff.Permanent` error
(no further attempts), a plain error (retried per the backoff), or nil with
the response captured (the retry loop ends). -/
inductive AttemptOutcome where
  | permanent (msg : String)
  | transient (msg : String)
  | ok (response : HttpResponse)

/-- The attempt closure of Client.httpGET (nakadi.go). -/
def httpGETAttempt (msg : String) (env : AttemptEnv) : AttemptOutcome :=
  match env.newRequestErr with
  | some e => .permanent (msg ++ ": unable to prepare request: " ++ e)
  | none =>
    match env.tokenProvider with
    | some (.error e) => .permanent (msg ++ ": unable to prepare request: " ++ e)
    | _ =>
      match env.doResult with
      | .error e => .transient (msg ++ ": " ++ e)
      | .ok response =>
        if response.statusCode ≥ 500 then
          match response.bodyRead with
          | .error e => .transient (msg ++ ": unable to read response body: " ++ e)
          | .ok buffer => .transient (decodeResponseToError buffer msg)
        else
          .ok response

/-- The attempt closure of Client.httpPUT (nakadi.go). -/
def httpPUTAttempt (msg : String) (env : AttemptEnv) : AttemptOutcome :=
  match env.newRequestErr with
  | some e => .permanent (msg ++ ": unable to prepare request: " ++ e)
  | none =>
    match env.tokenProvider with
    | some (.error e) => .permanent (msg ++ ": unable to prepare request: " ++ e)
    | _ =>
      match env.doResult with
      | .error e => .transient (msg ++ ": " ++ e)
      | .ok response =>
        if response.statusCode ≥ 500 then
          match response.bodyRead with
          | .error e => .transient (msg ++ ": unable to read response body: " ++ e)
          | .ok buffer => .transient (decodeResponseToError buffer msg)
        else
          .ok response

/-- The attempt closure of Client.httpPOSTHelper (nakadi.go). -/
def httpPOSTHelperAttempt (msg : String) (env : AttemptEnv) : AttemptOutcome :=
  match env.newRequestErr with
  | some e => .permanent (msg ++ ": unable to prepare request: " ++ e)
  | none =>
    match env.tokenProvider with
    | some (.error e) => .permanent (msg ++ ": unable to prepare request: " ++ e)
    | _ =>
      match env.doResult with
      | .error e => .transient (msg ++ ": " ++ e)
      | .ok response =>
        if response.statusCode ≥ 500 then
          match response.bodyRead with
          | .error e => .transient (msg ++ ": unable to read response body: " ++ e)
          | .ok buffer => .transient (decodeResponseToError buffer msg)
        else
          .ok response

/-- The attempt closure of Client.httpDELETE (nakadi.go). -/
def httpDELETEAttempt (msg : String) (env : AttemptEnv) : AttemptOutcome :=
  match env.newRequestErr with
  | some e => .permanent (msg ++ ": unable to prepare request: " ++ e)
  | none =>
    match env.tokenProvider with
    | some (.error e) => .permanent (msg ++ ": unable to prepare request: " ++ e)
    | _ =>
      match env.doResult with
      | .error e => .transient (msg ++ ": " ++ e)
      | .ok response =>
        if response.statusCode ≥ 500 then
          match response.bodyRead with
          | .error e => .transient (msg ++ ": unable to read response body: " ++ e)
          | .ok buffer => .transient (decodeResponseToError buffer msg)
        else
          .ok response

/-- The four retried helpers of nakadi.go, each represented by its per-attempt
classification. -/
def retriedHTTPHelpers : List (String → AttemptEnv → AttemptOutcome) :=
  [httpGETAttempt, httpPUTAttempt, httpPOSTHelperAttempt, httpDELETEAttempt]

/-- The final result `backoff.Retry` hands back to the helper. -/
inductive RetryResult where
  | failed (msg : String)
  | succeeded (response : HttpResponse)

/-- `backoff.Retry(attempt, backOff)`: run attempts until one returns nil or
a permanent error, or until the backoff is exhausted, in which case the last
transient error surfaces.  `envs k` is the environment of attempt number `k`
and `budget` is the number of retries the backoff still allows. -/
def backoffRetry (attempt : AttemptEnv → AttemptOutcome)
    (envs : Nat → AttemptEnv) : Nat → Nat → RetryResult
  | budget, k =>
    match attempt (envs k) with
    | .permanent m => .failed m
    | .ok r => .succeeded r
    | .transient m =>
      match budget with
      | 0 => .failed m
      | b + 1 => backoffRetry attempt envs b (k + 1)

/-- A token provider that does not make the attempt fail: absent, or
yielding a token. -/
def tokenOK (tp : Option (Except String String)) : Prop :=
  tp = none ∨ ∃ t, tp = some (.ok t)

/-! ## Stream reader and cursor committer (simple_stream.go) -/

/-- A Cursor marks the current read position in a stream (streams.go).  The
NakadiStreamID field carries the json tag "-": it is never read from or
written to the wire payload. -/
structure Cursor where
  partition : String
  offset : String
  eventType : String
  cursorToken : String
  nakadiStreamID : String
deriving DecidableEq, Repr

/-- The zero Cursor value. -/
def Cursor.zero : Cursor := ⟨"", "", "", "", ""⟩

/-- `json.Unmarshal` of one JSON value into a Cursor struct.  The
NakadiStreamID field is tagged `json:"-"` and is never populated. -/
def goUnmarshalCursorValue : Json → Except Unit Cursor
  | .null => .ok Cursor.zero
  | .obj fields => do
    let partition ← goFieldString fields "partition"
    let offset ← goFieldString fields "offset"
    let eventType ← goFieldString fields "event_type"
    let cursorToken ← goFieldString fields "cursor_token"
    .ok ⟨partition, offset, eventType, cursorToken, ""⟩
  | _ => .error ()

/-- `json.Unmarshal` of a batch line into the anonymous struct
`{ Cursor Cursor json:"cursor" }` of simpleStream.nextEvents. -/
def goUnmarshalBatch : Body → Except Unit Cursor
  | .malformed _ => .error ()
  | .wellFormed .null => .ok Cursor.zero
  | .wellFormed (.obj fields) =>
    match Json.lookupLast fields "cursor" with
    | none => .ok Cursor.zero
    | some v => goUnmarshalCursorValue v
  | .wellFormed _ => .error ()

/-- What `jsonparser.Get(buffer, "events")` reports about the events field. -/
inductive JsonparserResult where
  | notExist
  | null
  | value (raw : String)

/-- `jsonparser.Get` on the batch line: key lookup by first occurrence;
strings are returned unquoted, other values as their raw bytes. -/
def jsonparserGet (body : Body) (key : String) : Except Unit JsonparserResult :=
  match body with
  | .malformed _ => .error ()
  | .wellFormed (.obj fields) =>
    match Json.lookupFirst fields key with
    | none => .ok .notExist
    | some .null => .ok .null
    | some (.str s) => .ok (.value s)
    | some v => .ok (.value v.render)
  | .wellFormed _ => .ok .notExist

/-- simpleStream: the captured X-Nakadi-StreamId and whether closeStream has
set the buffered reader to nil. -/
structure simpleStream where
  nakadiStreamID : String
  closedBuf : Bool

/-- simpleStream.nextEvents: read one line, unmarshal the envelope, stamp the
cursor with the captured stream id, and return the raw events, which are nil
exactly when the events field is absent or null.  `line` is the result of
readLineTimeout together with the parse of the bytes it produced. -/
def simpleStream.nextEvents (s : simpleStream) (line : Except String Body) :
    Except String (Cursor × Option String) :=
  if s.closedBuf then .error "failed to read next batch: stream is closed" else
  match line with
  | .error e => .error ("failed to read next batch: " ++ e)
  | .ok body =>
    match goUnmarshalBatch body with
    | .error _ => .error "failed to unmarshal next batch"
    | .ok parsed =>
      let cursor := { parsed with nakadiStreamID := s.nakadiStreamID }
      match jsonparserGet body "events" with
      | .error _ => .error "failed to read events in next batch"
      | .ok .notExist => .ok (cursor, none)
      | .ok .null => .ok (cursor, none)
      | .ok (.value raw) => .ok (cursor, some raw)

/-- simpleStreamOpener.openStream: build the request, fetch the token if a
provider is configured, perform the call, reject statuses of 400 and above,
and otherwise capture the X-Nakadi-StreamId response header into the new
stream. -/
def simpleStreamOpener.openStream (newRequestErr : Option String)
    (tokenProvider : Option (Except String String))
    (doResult : Except String HttpResponse) : Except String simpleStream :=
  match newRequestErr with
  | some e => .error ("unable to create request: " ++ e)
  | none =>
    match tokenProvider with
    | some (.error e) => .error ("unable to open stream: " ++ e)
    | _ =>
      match doResult with
      | .error e => .error ("unable to create stream: " ++ e)
      | .ok response =>
        if response.statusCode ≥ 400 then
          match response.bodyRead with
          | .error e => .error ("unable to read response body: " ++ e)
          | .ok buffer => .error (decodeResponseToError buffer "unable to open stream")
        else
          .ok { nakadiStreamID := headerGet response.headers "X-Nakadi-StreamId",
                closedBuf := false }

/-- `json.Marshal` of a Cursor: NakadiStreamID is excluded by its `json:"-"`
tag. -/
def Cursor.marshal (c : Cursor) : Json :=
  .obj [("partition", .str c.partition), ("offset", .str c.offset),
        ("event_type", .str c.eventType), ("cursor_token", .str c.cursorToken)]

/-- simpleCommitter.commitCursor, up to the point the request is handed to
`httpClient.Do`: marshal `{items: [cursor]}`, create the POST request, and
set the Content-Type, X-Nakadi-StreamId and (optionally) Authorization
headers. -/
def simpleCommitter.commitCursorRequest (nakadiURL subscriptionID : String)
    (cursor : Cursor) (newRequestErr : Option String)
    (tokenProvider : Option (Except String String)) :
    Except String HttpRequest :=
  let data := (Json.obj [("items", .arr [cursor.marshal])]).render
  match newRequestErr with
  | some e => .error ("unable to create request: " ++ e)
  | none =>
    let headers := headerSet [] "Content-Type" "application/json;charset=UTF-8"
    let headers := headerSet headers "X-Nakadi-StreamId" cursor.nakadiStreamID
    match tokenProvider with
    | some (.error e) => .error ("unable to commit cursor: " ++ e)
    | some (.ok token) =>
      .ok { method := "POST",
            url := nakadiURL ++ "/subscriptions/" ++ subscriptionID ++ "/cursors",
            headers := headerSet headers "Authorization" ("Bearer " ++ token),
            body := data }
    | none =>
      .ok { method := "POST",
            url := nakadiURL ++ "/subscriptions/" ++ subscriptionID ++ "/cursors",
            headers := headers,
            body := data }

/-! ## Stream engine (StreamAPI: NextEvents / Close / startStream)

The engine runs one background worker (startStream) that publishes batches
onto a channel of capacity 10, while NextEvents selects between the
cancellation token and the channel.  The worker, the channel and the
cancellation token are modelled as an explicit transition system; the
nondeterminism of a Go `select` whose cases are simultaneously ready is a
Bool choice carried by the action.  The model starts at the top of the inner
read loop of an opened stream: open retries neither touch the channel nor
the counters.  Ghost fields record what the claims speak about. -/

/-- A Go error as the engine observes it: context.Canceled or any other
error. -/
inductive GoErr where
  | canceled
  | other (msg : String)
deriving DecidableEq, Repr

/-- eventsOrError: a successful or failed batch read, as carried by the
engine's event channel.  `events` is a Go byte slice: none is nil. -/
structure eventsOrError where
  cursor : Cursor
  events : Option String
  err : Option GoErr
deriving DecidableEq, Repr

/-- `len(events)` of a Go byte slice modelled as Option String. -/
def eventsLen : Option String → Nat
  | none => 0
  | some s => s.length

/-- Control position of the startStream worker inside its inner loop. -/
inductive WorkerPC where
  | atRead
  | atSend
  | terminated
deriving DecidableEq, Repr

/-- Capacity of the engine's event channel (`make(chan eventsOrError, 10)`). -/
def chanCap : Nat := 10

/-- The whole engine: cancellation token, channel, worker control state with
the worker's local variables, the remaining reads the current/future streams
will produce, and ghost fields (deliveredItems, postCloseEnq, postCloseDeliv,
qlenAtClose) recording the observations the claims are about. -/
structure EngineState where
  cancelled : Bool
  chan : List eventsOrError
  chanClosed : Bool
  pc : WorkerPC
  cursor : Cursor
  events : Option String
  err : Option GoErr
  pending : List eventsOrError
  deliveredItems : List eventsOrError
  postCloseEnq : Nat
  postCloseDeliv : Nat
  qlenAtClose : Nat

/-- Initial engine state over a given schedule of stream reads. -/
def engineInit (pending : List eventsOrError) : EngineState :=
  { cancelled := false, chan := [], chanClosed := false, pc := .atRead,
    cursor := Cursor.zero, events := none, err := none, pending := pending,
    deliveredItems := [], postCloseEnq := 0, postCloseDeliv := 0,
    qlenAtClose := 0 }

/-- One scheduling step: Close, one worker step, or one NextEvents call.
`pickDone` resolves a select whose ctx.Done and channel cases are both
ready in favor of ctx.Done. -/
inductive EngineAction where
  | close
  | workerStep (pickDone : Bool)
  | nextEvents (pickDone : Bool)

/-- After the worker's send select has run: nil error continues the read
loop, context.Canceled closes the stream and the channel and terminates the
worker, any other error breaks out so that the outer loop reopens a stream
(with fresh local variables). -/
def engineAfterSend (st : EngineState) : EngineState :=
  match st.err with
  | none => { st with pc := .atRead }
  | some .canceled => { st with chanClosed := true, pc := .terminated }
  | some (.other _) =>
    { st with pc := .atRead, cursor := Cursor.zero, events := none, err := none }

/-- The transition function of the engine model, one action at a time. -/
def engineStep (st : EngineState) (a : EngineAction) : EngineState :=
  match a with
  | .close =>
    if st.cancelled then st
    else { st with cancelled := true, qlenAtClose := st.chan.length }
  | .workerStep pickDone =>
    match st.pc with
    | .terminated => st
    | .atRead =>
      if st.cancelled then
        -- the read select: ctx.Done is ready, so err = context.Canceled and
        -- the locals keep their previous values
        { st with err := some .canceled, pc := .atSend }
      else
        match st.pending with
        | [] => st
        | r :: rest =>
          -- cursor, events, err = stream.nextEvents(); keep-alive batches
          -- (err == nil && len(events) == 0) loop without publishing
          if r.err = none ∧ eventsLen r.events = 0 then
            { st with pending := rest, cursor := r.cursor, events := r.events,
                      err := r.err }
          else
            { st with pending := rest, cursor := r.cursor, events := r.events,
                      err := r.err, pc := .atSend }
    | .atSend =>
      if st.cancelled then
        if pickDone ∨ ¬(st.chan.length < chanCap) then
          -- ctx.Done chosen: err = context.Canceled, then closeStream,
          -- close(eventCh), return
          { st with err := some .canceled, chanClosed := true, pc := .terminated }
        else
          engineAfterSend
            { st with chan := st.chan ++ [⟨st.cursor, st.events, st.err⟩],
                      postCloseEnq := st.postCloseEnq + 1 }
      else
        if st.chan.length < chanCap then
          engineAfterSend
            { st with chan := st.chan ++ [⟨st.cursor, st.events, st.err⟩] }
        else
          st
  | .nextEvents pickDone =>
    if st.cancelled then
      match st.chan with
      | c :: rest =>
        if pickDone then st
        else
          { st with chan := rest, deliveredItems := st.deliveredItems ++ [c],
                    postCloseDeliv := st.postCloseDeliv + 1 }
      | [] => st
    else
      match st.chan with
      | c :: rest =>
        { st with chan := rest, deliveredItems := st.deliveredItems ++ [c] }
      | [] => st

/-- Run the engine over a list of scheduling actions. -/
def engineRun (st : EngineState) : List EngineAction → EngineState
  | [] => st
  | a :: rest => engineRun (engineStep st a) rest

/-! ## Publish API (publish.go) -/

/-- One per-event record of a partial publish response. -/
structure BatchItemResponse where
  eid : String
  publishingStatus : String
  step : String
  detail : String
deriving DecidableEq, Repr

/-- `json.Unmarshal` of one array element into a BatchItemResponse. -/
def goUnmarshalBatchItemValue : Json → Except Unit BatchItemResponse
  | .null => .ok ⟨"", "", "", ""⟩
  | .obj fields => do
    let eid ← goFieldString fields "eid"
    let publishingStatus ← goFieldString fields "publishing_status"
    let step ← goFieldString fields "step"
    let detail ← goFieldString fields "detail"
    .ok ⟨eid, publishingStatus, step, detail⟩
  | _ => .error ()

/-- `json.Unmarshal` of a body into BatchItemsError ([]BatchItemResponse):
none models the nil slice (body null), some a decoded array. -/
def goUnmarshalBatchItems (body : Body) :
    Except Unit (Option (List BatchItemResponse)) :=
  match body with
  | .malformed _ => .error ()
  | .wellFormed .null => .ok none
  | .wellFormed (.arr elems) => do
    let records ← elems.mapM goUnmarshalBatchItemValue
    .ok (some records)
  | .wellFormed _ => .error ()

/-- BatchItemsError is a []BatchItemResponse; none is the nil slice. -/
def BatchItemsError := Option (List BatchItemResponse)

/-- BatchItemsError.Error (publish.go): the terse overall message. -/
def BatchItemsError.Error : BatchItemsError → String
  | none => ""
  | some _ => "one or many events may have not been published"

/-- How PublishAPI.Publish ends. -/
inductive PublishResult where
  | ok
  | requestFailed (msg : String)
  | batchItemsFailed (records : BatchItemsError)
  | bodyFailed
  | brokerFailed (msg : String)

/-- PublishAPI.Publish (publish.go), given the outcome of the retried POST:
a 207 or 422 response has its body decoded as the partial-publish records
and is returned as a BatchItemsError; any other non-200 status is decoded
through the broker error decoder; 200 is success. -/
def PublishAPI.Publish (postResult : RetryResult) : PublishResult :=
  match postResult with
  | .failed m => .requestFailed m
  | .succeeded response =>
    if response.statusCode = 207 ∨ response.statusCode = 422 then
      match response.bodyRead with
      | .error _ => .bodyFailed
      | .ok body =>
        match goUnmarshalBatchItems body with
        | .error _ => .bodyFailed
        | .ok records => .batchItemsFailed records
    else if response.statusCode ≠ 200 then
      match response.bodyRead with
      | .error _ => .bodyFailed
      | .ok buffer =>
        .brokerFailed (decodeResponseToError buffer "unable to request event types")
    else
      .ok

/-! ## Publish batcher (batcher.go) -/

/-- eventToPublish: a queued single event together with its private result
channel, identified by `chanId`. -/
structure eventToPublish where
  chanId : Nat
  payload : String
deriving DecidableEq, Repr

/-- The argument of BatchPublishAPI.Publish: `reflect.TypeOf(event).Kind()`
distinguishes a slice from a single event. -/
inductive PublishArg where
  | slice (events : List String)
  | single (event : String)

/-- BatchPublishAPI.Publish: a slice is published immediately in the calling
context through the underlying publish API and its result returned; a single
event is wrapped and appended to the coalescing queue (the first component
is none because the caller then blocks on its result channel). -/
def BatchPublishAPI.Publish (pub : List String → Option String)
    (queue : List eventToPublish) (nextChan : Nat) (arg : PublishArg) :
    Option (Option String) × List eventToPublish :=
  match arg with
  | .slice events => (some (pub events), queue)
  | .single event => (none, queue ++ [⟨nextChan, event⟩])

/-- BatchPublishAPI.publishBatchToNakadi: publish the collected events as one
batch and send the single resulting error (or nil) to the result channel of
every participating event. -/
def publishBatchToNakadi (pub : List String → Option String)
    (events : List eventToPublish) : Option String × List (Nat × Option String) :=
  let itemsToPublish := events.map (fun evt => evt.payload)
  let err := pub itemsToPublish
  (err, events.map (fun evt => (evt.chanId, err)))

/-- What the dispatch loop observes at one iteration: an event received from
the queue, the queue reported closed, or the collection deadline reached
(either by the loop-top time check or the select timer). -/
inductive DispatchIn where
  | arrive (e : eventToPublish)
  | chClosed
  | expire

/-- The dispatch loop's state: the current batch and whether
finishBatchCollectionAt is set. -/
structure DState where
  batch : List eventToPublish
  deadlineSet : Bool

/-- `flush()` publishes only a non-empty batch. -/
def flushOut (batch : List eventToPublish) : List (List eventToPublish) :=
  if batch.isEmpty then [] else [batch]

/-- One iteration of BatchPublishAPI.dispatchThread: first the loop-top size
check (a full batch flushes before anything is selected), then the handling
of the observed input.  Returns the new state, the batches flushed, and
whether the loop exited. -/
def dispatchStep (maxBatchSize : Int) (st : DState) (i : DispatchIn) :
    DState × List (List eventToPublish) × Bool :=
  let pre :=
    if st.deadlineSet ∧ maxBatchSize ≤ (st.batch.length : Int) then
      (DState.mk [] false, flushOut st.batch)
    else (st, [])
  let st1 := pre.1
  match st1.deadlineSet, i with
  | false, .arrive e => (⟨st1.batch ++ [e], true⟩, pre.2, false)
  | false, .chClosed => (st1, pre.2, true)
  | false, .expire => (st1, pre.2, false)
  | true, .arrive e => (⟨st1.batch ++ [e], true⟩, pre.2, false)
  | true, .chClosed => (⟨[], false⟩, pre.2 ++ flushOut st1.batch, true)
  | true, .expire => (⟨[], false⟩, pre.2 ++ flushOut st1.batch, false)

/-- The dispatch loop over a schedule of observations, collecting every
flushed batch in order. -/
def dispatchRun (maxBatchSize : Int) (st : DState) :
    List DispatchIn → List (List eventToPublish)
  | [] => []
  | i :: rest =>
    let (st1, flushes, exited) := dispatchStep maxBatchSize st i
    if exited then flushes else flushes ++ dispatchRun maxBatchSize st1 rest

/-! ## Processor (processor.go) -/

/-- The processor's cross-call state: the started flag guarded by the mutex,
whether the shared context has been cancelled, and the number of configured
streams (the length of streamOptions). -/
structure Processor where
  isStarted : Bool
  ctxCancelled : Bool
  streamOptions : Nat

/-- Processor.Start: fails when already started, else sets the flag and
spawns one worker per stream option. -/
def Processor.Start (p : Processor) : Except String Processor :=
  if p.isStarted then .error "processor was already started"
  else .ok { p with isStarted := true }

/-- Processor.Stop: fails when not running; otherwise cancels the shared
context and receives exactly one close result per stream from closeErrorCh,
returning a count-bearing error when any close failed.  `closeResults`
models the channel contents; the unread remainder is returned. -/
def Processor.Stop (p : Processor) (closeResults : List (Option String)) :
    Option String × Processor × List (Option String) :=
  if ¬p.isStarted then (some "processor is not running", p, closeResults)
  else
    let p1 := { p with ctxCancelled := true }
    let received := closeResults.take p.streamOptions
    let errCount := (received.filter (fun r => r.isSome)).length
    if 0 < errCount then
      (some (toString errCount ++ " streams had errors while closing the stream"),
       p1, closeResults.drop p.streamOptions)
    else
      (none, p1, closeResults.drop p.streamOptions)

/-! ## Theorems -/

/-- C9 (amended): decodeResponseToError first tries the problem+json shape
and on success returns the message built from its detail; only when that
decode fails does it try the `{error, error_description}` shape, returning
its error_description on success; otherwise it falls back to the raw body.
Because `json.Unmarshal` into problemJSON accepts any JSON object (unknown
keys ignored, absent keys left zero), a well-formed body in the alternate
shape is already accepted by the first decode, so the returned error carries
the empty problem detail rather than error_description; the alternate branch
fires only when the problem decode fails (for instance on a field type
conflict) while the alternate decode succeeds. -/
theorem decodeResponseToError_shape_order (msg : String) (body : Body) :
    (∀ problem, goUnmarshalProblemJSON body = .ok problem →
      decodeResponseToError body msg = msg ++ ": " ++ problem.detail) ∧
    (goUnmarshalProblemJSON body = .error () →
      ∀ errJSON, goUnmarshalErrorJSON body = .ok errJSON →
        decodeResponseToError body msg = msg ++ ": " ++ errJSON.errorDescription) ∧
    (goUnmarshalProblemJSON body = .error () →
      goUnmarshalErrorJSON body = .error () →
      decodeResponseToError body msg = msg ++ ": " ++ body.raw) ∧
    (∀ e d, decodeResponseToError
        (.wellFormed (.obj [("error", .str e), ("error_description", .str d)]))
        msg = msg ++ ": " ++ "") := by
  refine ⟨?_, ?_, ?_, ?_⟩
  · intro problem h
    simp [decodeResponseToError, h]
  · intro h1 errJSON h2
    simp [decodeResponseToError, h1, h2]
  · intro h1 h2
    simp [decodeResponseToError, h1, h2]
  · intro e d
    rfl

/-- C9 counterexample: a body in the alternate `{error, error_description}`
shape does not surface its error_description; the problem decode accepts the
object first and yields an empty detail. -/
theorem decodeResponseToError_alternate_cex :
    decodeResponseToError
      (.wellFormed (.obj [("error", .str "conflict"),
                          ("error_description", .str "boom")]))
      "unable to commit cursor" = "unable to commit cursor: " ∧
    "unable to commit cursor: " ≠ "unable to commit cursor: boom" :=
  ⟨rfl, by decide⟩

/-- C9 witness: when the problem decode fails on a type conflict, the
alternate branch does surface error_description. -/
theorem decodeResponseToError_shape_order_witness :
    decodeResponseToError
      (.wellFormed (.obj [("status", .str "bad"),
                          ("error_description", .str "boom")])) "m" =
      "m" ++ ": " ++ "boom" :=
  (decodeResponseToError_shape_order "m"
      (.wellFormed (.obj [("status", .str "bad"),
                          ("error_description", .str "boom")]))).2.1
    rfl ⟨"", "boom"⟩ rfl

/-- C4 (amended): a 207 or 422 response has its body decoded as the array of
per-event records and is returned as a BatchItemsError carrying every record;
the overall message of that error is "one or many events may have not been
published". -/
theorem PublishAPI_Publish_partial (response : HttpResponse) (body : Body)
    (records : List BatchItemResponse)
    (hstatus : response.statusCode = 207 ∨ response.statusCode = 422)
    (hbody : response.bodyRead = .ok body)
    (hdecode : goUnmarshalBatchItems body = .ok (some records)) :
    PublishAPI.Publish (.succeeded response) = .batchItemsFailed (some records) ∧
    BatchItemsError.Error (some records) =
      "one or many events may have not been published" := by
  constructor
  · have hcond : response.statusCode = 207 ∨ response.statusCode = 422 := hstatus
    simp [PublishAPI.Publish, hcond, hbody, hdecode]
  · rfl

/-- C4 counterexample: a concrete 207 response whose body decodes to one
record is returned as a BatchItemsError, and that error's message differs
from "at least one event may not have been published". -/
theorem PublishAPI_Publish_partial_cex :
    PublishAPI.Publish (.succeeded ⟨207, [],
        .ok (.wellFormed (.arr [.obj [("eid", .str "e1"),
                                      ("publishing_status", .str "failed")]]))⟩) =
      .batchItemsFailed (some [⟨"e1", "failed", "", ""⟩]) ∧
    BatchItemsError.Error (some [⟨"e1", "failed", "", ""⟩]) ≠
      "at least one event may not have been published" :=
  ⟨rfl, by decide⟩

/-- C4 witness: the amended theorem applied to a concrete 422 response. -/
theorem PublishAPI_Publish_partial_witness :
    PublishAPI.Publish (.succeeded ⟨422, [], .ok (.wellFormed (.arr []))⟩) =
      .batchItemsFailed (some []) ∧
    BatchItemsError.Error (some []) =
      "one or many events may have not been published" :=
  PublishAPI_Publish_partial ⟨422, [], .ok (.wellFormed (.arr []))⟩
    (.wellFormed (.arr [])) [] (.inr rfl) rfl rfl

/-- C6: a slice argument is published immediately in the calling context
through the underlying publish API, its result is returned unchanged, and
the coalescing queue is left untouched, so a slice submission never mingles
with coalesced single events. -/
theorem BatchPublishAPI_Publish_slice (pub : List String → Option String)
    (queue : List eventToPublish) (nextChan : Nat) (events : List String) :
    BatchPublishAPI.Publish pub queue nextChan (.slice events) =
      (some (pub events), queue) :=
  rfl

/-- C8: Start fails when the processor is already started; Stop fails when it
is not running; a Stop on a running processor cancels the shared context,
consumes exactly one close result per stream, succeeds when no close failed,
and otherwise reports the number of failed closes. -/
theorem Processor_start_stop (p : Processor) (closeResults : List (Option String))
    (hlen : closeResults.length = p.streamOptions) :
    (p.isStarted = true → p.Start = .error "processor was already started") ∧
    (p.isStarted = false →
      p.Stop closeResults = (some "processor is not running", p, closeResults)) ∧
    (p.isStarted = true →
      (p.Stop closeResults).2.1.ctxCancelled = true ∧
      (p.Stop closeResults).2.2 = [] ∧
      ((closeResults.filter (fun r => r.isSome)).length = 0 →
        (p.Stop closeResults).1 = none) ∧
      (∀ n, (closeResults.filter (fun r => r.isSome)).length = n → 0 < n →
        (p.Stop closeResults).1 =
          some (toString n ++ " streams had errors while closing the stream"))) := by
  have htake : closeResults.take p.streamOptions = closeResults := by
    rw [← hlen]; exact List.take_length closeResults
  have hdrop : closeResults.drop p.streamOptions = [] := by
    rw [← hlen]; exact List.drop_length closeResults
  refine ⟨?_, ?_, ?_⟩
  · intro h; simp [Processor.Start, h]
  · intro h; simp [Processor.Stop, h]
  · intro h
    refine ⟨?_, ?_, ?_, ?_⟩
    · simp only [Processor.Stop, h, not_true, if_false]
      split <;> rfl
    · simp only [Processor.Stop, h, hdrop, not_true, if_false]
      split <;> rfl
    · intro hzero
      simp [Processor.Stop, h, htake, hdrop, hzero]
    · intro n hn hpos
      simp [Processor.Stop, h, htake, hdrop, hn, hpos]

/-- C8 witness: a running processor over two streams, one failed close. -/
theorem Processor_start_stop_witness :
    (Processor.Stop ⟨true, false, 2⟩ [some "x", none]).1 =
      some (toString 1 ++ " streams had errors while closing the stream") :=
  ((Processor_start_stop ⟨true, false, 2⟩ [some "x", none] rfl).2.2 rfl).2.2.2
    1 rfl (by decide)

/-- C10: a successful Start sets the started flag and Stop never resets it,
so after Start and Stop every further Start fails; processing again needs a
fresh Processor value. -/
theorem Processor_not_restartable (p p1 : Processor)
    (closeResults : List (Option String))
    (hstart : p.Start = .ok p1) :
    p1.isStarted = true ∧
    (p1.Stop closeResults).2.1.isStarted = true ∧
    (p1.Stop closeResults).2.1.Start = .error "processor was already started" := by
  have h1 : p1.isStarted = true := by
    unfold Processor.Start at hstart
    by_cases h : p.isStarted
    · simp [h] at hstart
    · simp [h] at hstart
      rw [← hstart]
  have h2 : (p1.Stop closeResults).2.1.isStarted = true := by
    unfold Processor.Stop
    simp [h1]
    split <;> simp [h1]
  refine ⟨h1, h2, ?_⟩
  simp [Processor.Start, h2]

/-- C10 witness: start a fresh processor, stop it, start again. -/
theorem Processor_not_restartable_witness :
    (Processor.Stop ⟨true, false, 1⟩ [none]).2.1.Start =
      .error "processor was already started" :=
  (Processor_not_restartable ⟨false, false, 1⟩ ⟨true, false, 1⟩ [none] rfl).2.2

/-- C1: stream-identity propagation.  Opening a stream with a status below
400 captures the X-Nakadi-StreamId response header; every cursor the reader
returns is stamped with that captured id; and the commit request carries the
X-Nakadi-StreamId header with exactly the cursor's NakadiStreamID. -/
theorem stream_identity_propagation :
    (∀ tokenProvider response, tokenOK tokenProvider →
      response.statusCode < 400 →
      simpleStreamOpener.openStream none tokenProvider (.ok response) =
        .ok ⟨headerGet response.headers "X-Nakadi-StreamId", false⟩) ∧
    (∀ s line cursor events,
      simpleStream.nextEvents s line = .ok (cursor, events) →
      cursor.nakadiStreamID = s.nakadiStreamID) ∧
    (∀ nakadiURL subscriptionID cursor tokenProvider req,
      simpleCommitter.commitCursorRequest nakadiURL subscriptionID cursor none
        tokenProvider = .ok req →
      headerGet req.headers "X-Nakadi-StreamId" = cursor.nakadiStreamID) := by
  refine ⟨?_, ?_, ?_⟩
  · intro tokenProvider response htok hstatus
    have hlt : ¬(response.statusCode ≥ 400) := by omega
    rcases htok with rfl | ⟨t, rfl⟩ <;>
      simp [simpleStreamOpener.openStream, hlt]
  · intro s line cursor events h
    unfold simpleStream.nextEvents at h
    by_cases hclosed : s.closedBuf
    · simp [hclosed] at h
    · simp only [hclosed, if_false, Bool.false_eq_true] at h
      match line with
      | .error e => simp at h
      | .ok body =>
        match hb : goUnmarshalBatch body with
        | .error _ => simp [hb] at h
        | .ok parsed =>
          simp only [hb] at h
          match hev : jsonparserGet body "events" with
          | .error _ => simp [hev] at h
          | .ok .notExist =>
            simp [hev] at h
            rw [← h.1]
          | .ok .null =>
            simp [hev] at h
            rw [← h.1]
          | .ok (.value raw) =>
            simp [hev] at h
            rw [← h.1]
  · intro nakadiURL subscriptionID cursor tokenProvider req h
    unfold simpleCommitter.commitCursorRequest at h
    match tokenProvider with
    | some (.error e) => simp at h
    | some (.ok token) =>
      simp only [Except.ok.injEq] at h
      rw [← h]
      rfl
    | none =>
      simp only [Except.ok.injEq] at h
      rw [← h]
      rfl

/-- C1 witness: open against a concrete response, read one concrete batch
line, and build the commit request for the resulting cursor. -/
theorem stream_identity_propagation_witness :
    simpleStreamOpener.openStream none none
        (.ok ⟨200, [("X-Nakadi-StreamId", "sid-1")], .ok (.malformed "")⟩) =
      .ok ⟨"sid-1", false⟩ ∧
    Cursor.nakadiStreamID ⟨"0", "5", "et", "tok", "sid-1"⟩ = "sid-1" ∧
    headerGet
      [("X-Nakadi-StreamId", "sid-1"), ("Content-Type", "application/json;charset=UTF-8")]
      "X-Nakadi-StreamId" = Cursor.nakadiStreamID ⟨"0", "5", "et", "tok", "sid-1"⟩ := by
  refine ⟨?_, ?_, ?_⟩
  · have h := (stream_identity_propagation.1
      none ⟨200, [("X-Nakadi-StreamId", "sid-1")], .ok (.malformed "")⟩
      (Or.inl rfl) (by decide))
    simpa using h
  · exact (stream_identity_propagation.2.1 ⟨"sid-1", false⟩
      (.ok (.wellFormed (.obj [("cursor",
        .obj [("partition", .str "0"), ("offset", .str "5"),
              ("event_type", .str "et"), ("cursor_token", .str "tok")])])))
      ⟨"0", "5", "et", "tok", "sid-1"⟩ none rfl) ▸ rfl
  · exact (stream_identity_propagation.2.2 "http://n" "sub-1"
      ⟨"0", "5", "et", "tok", "sid-1"⟩ none
      ⟨"POST", "http://n/subscriptions/sub-1/cursors",
       [("X-Nakadi-StreamId", "sid-1"),
        ("Content-Type", "application/json;charset=UTF-8")],
       (Json.obj [("items", .arr [Cursor.marshal ⟨"0", "5", "et", "tok", "sid-1"⟩])]).render⟩
      rfl)

/-- The per-attempt classification shared by the four retried helpers,
together with how the retry loop reacts to each class. -/
def attemptClassified (f : String → AttemptEnv → AttemptOutcome) : Prop :=
  ∀ msg : String,
    (∀ e doResult (envs : Nat → AttemptEnv) budget k,
      envs k = ⟨none, some (.error e), doResult⟩ →
      f msg (envs k) = .permanent (msg ++ ": unable to prepare request: " ++ e) ∧
      backoffRetry (f msg) envs budget k =
        .failed (msg ++ ": unable to prepare request: " ++ e)) ∧
    (∀ tp e, tokenOK tp →
      f msg ⟨none, tp, .error e⟩ = .transient (msg ++ ": " ++ e)) ∧
    (∀ tp response body, tokenOK tp →
      500 ≤ response.statusCode → response.bodyRead = .ok body →
      f msg ⟨none, tp, .ok response⟩ =
        .transient (decodeResponseToError body msg)) ∧
    (∀ (envs : Nat → AttemptEnv) budget k m, f msg (envs k) = .transient m →
      backoffRetry (f msg) envs (budget + 1) k =
        backoffRetry (f msg) envs budget (k + 1)) ∧
    (∀ tp response (envs : Nat → AttemptEnv) budget k, tokenOK tp →
      response.statusCode < 500 →
      envs k = ⟨none, tp, .ok response⟩ →
      f msg (envs k) = .ok response ∧
      backoffRetry (f msg) envs budget k = .succeeded response)

theorem httpGETAttempt_classified : attemptClassified httpGETAttempt := by
  intro msg
  refine ⟨?_, ?_, ?_, ?_, ?_⟩
  · intro e doResult envs budget k henv
    have hf : httpGETAttempt msg (envs k) =
        .permanent (msg ++ ": unable to prepare request: " ++ e) := by
      rw [henv]; rfl
    refine ⟨hf, ?_⟩
    unfold backoffRetry
    rw [hf]
  · intro tp e htok
    rcases htok with rfl | ⟨t, rfl⟩ <;> rfl
  · intro tp response body htok hstatus hbody
    have hge : response.statusCode ≥ 500 := hstatus
    rcases htok with rfl | ⟨t, rfl⟩ <;>
      simp [httpGETAttempt, hge, hbody]
  · intro envs budget k m hf
    conv_lhs => unfold backoffRetry
    rw [hf]
  · intro tp response envs budget k htok hstatus henv
    have hlt : ¬(response.statusCode ≥ 500) := by omega
    have hf : httpGETAttempt msg (envs k) = .ok response := by
      rw [henv]
      rcases htok with rfl | ⟨t, rfl⟩ <;> simp [httpGETAttempt, hlt]
    refine ⟨hf, ?_⟩
    unfold backoffRetry
    rw [hf]

/-- C3: in each of the four retried HTTP helpers, every attempt classifies a
token-provider failure as permanent (the retry loop stops at once), a
transport error with no response as transient (retried while the backoff
allows), a response with status at least 500 as transient with the body
decoded into the retry error, and a response with status below 500 as the
end of the retry loop, which then yields that response. -/
theorem http_retry_classification :
    ∀ f ∈ retriedHTTPHelpers, attemptClassified f := by
  intro f hf
  have hput : httpPUTAttempt = httpGETAttempt := rfl
  have hpost : httpPOSTHelperAttempt = httpGETAttempt := rfl
  have hdel : httpDELETEAttempt = httpGETAttempt := rfl
  simp only [retriedHTTPHelpers, List.mem_cons, List.not_mem_nil, or_false] at hf
  rcases hf with rfl | rfl | rfl | rfl
  · exact httpGETAttempt_classified
  · rw [hput]; exact httpGETAttempt_classified
  · rw [hpost]; exact httpGETAttempt_classified
  · rw [hdel]; exact httpGETAttempt_classified

/-- C3 witness: the classification applied to httpPOSTHelper at concrete
environments: a failing token provider stops the loop at once, and a 503
response with a problem body becomes a transient error carrying the decoded
body. -/
theorem http_retry_classification_witness :
    backoffRetry (httpPOSTHelperAttempt "unable to request event types")
        (fun _ => ⟨none, some (.error "token broken"), .error "unused"⟩) 3 0 =
      .failed ("unable to request event types" ++
        ": unable to prepare request: " ++ "token broken") ∧
    httpPOSTHelperAttempt "unable to request event types"
        ⟨none, none, .ok ⟨503, [],
          .ok (.wellFormed (.obj [("detail", .str "overloaded"),
                                  ("status", .num 503)]))⟩⟩ =
      .transient (decodeResponseToError
        (.wellFormed (.obj [("detail", .str "overloaded"), ("status", .num 503)]))
        "unable to request event types") := by
  have hmem : httpPOSTHelperAttempt ∈ retriedHTTPHelpers := by
    simp [retriedHTTPHelpers]
  have h := http_retry_classification httpPOSTHelperAttempt hmem
    "unable to request event types"
  constructor
  · exact ((h.1 "token broken" (.error "unused")
      (fun _ => ⟨none, some (.error "token broken"), .error "unused"⟩) 3 0 rfl)).2
  · exact h.2.2.1 none ⟨503, [],
      .ok (.wellFormed (.obj [("detail", .str "overloaded"), ("status", .num 503)]))⟩
      (.wellFormed (.obj [("detail", .str "overloaded"), ("status", .num 503)]))
      (Or.inl rfl) (by decide) rfl

/-- A channel item that is not a keep-alive: it carries an error or a
non-empty events payload. -/
def keepAliveFree (i : eventsOrError) : Prop :=
  ¬(i.err = none ∧ eventsLen i.events = 0)

/-- Invariant: no keep-alive item is on the channel, none was ever delivered,
and the worker about to send holds no keep-alive item. -/
def EngineKAInv (st : EngineState) : Prop :=
  (∀ i ∈ st.chan, keepAliveFree i) ∧
  (∀ i ∈ st.deliveredItems, keepAliveFree i) ∧
  (st.pc = .atSend → keepAliveFree ⟨st.cursor, st.events, st.err⟩)

theorem engineAfterSend_ka (st : EngineState)
    (hchan : ∀ i ∈ st.chan, keepAliveFree i)
    (hdel : ∀ i ∈ st.deliveredItems, keepAliveFree i) :
    EngineKAInv (engineAfterSend st) := by
  unfold engineAfterSend
  rcases herr : st.err with _ | e
  · exact ⟨hchan, hdel, by intro h; cases h⟩
  · cases e
    · exact ⟨hchan, hdel, by intro h; cases h⟩
    · exact ⟨hchan, hdel, by intro h; cases h⟩

theorem engineStep_ka (st : EngineState) (a : EngineAction)
    (h : EngineKAInv st) : EngineKAInv (engineStep st a) := by
  obtain ⟨hchan, hdel, hsend⟩ := h
  cases a with
  | close =>
    by_cases hc : st.cancelled <;> simp only [engineStep, hc, if_true, if_false] <;>
      exact ⟨hchan, hdel, hsend⟩
  | workerStep pickDone =>
    rcases hpc : st.pc with _ | _ | _
    · -- atRead
      by_cases hc : st.cancelled
      · simp only [engineStep, hpc, hc, if_true]
        refine ⟨hchan, hdel, ?_⟩
        intro _
        simp [keepAliveFree]
      · simp only [engineStep, hpc, hc, if_false]
        rcases hp : st.pending with _ | ⟨r, rest⟩
        · exact ⟨hchan, hdel, fun hx => hsend (hpc ▸ hx)⟩
        · by_cases hka : r.err = none ∧ eventsLen r.events = 0
          · simp only [hka, if_true]
            exact ⟨hchan, hdel, by intro hx; cases hx⟩
          · simp only [hka, if_false]
            exact ⟨hchan, hdel, fun _ => hka⟩
    · -- atSend
      have hitem : keepAliveFree ⟨st.cursor, st.events, st.err⟩ := hsend hpc
      by_cases hc : st.cancelled
      · simp only [engineStep, hpc, hc, if_true]
        by_cases hpick : pickDone ∨ ¬(st.chan.length < chanCap)
        · simp only [hpick, if_true]
          exact ⟨hchan, hdel, by intro hx; cases hx⟩
        · simp only [hpick, if_false]
          refine engineAfterSend_ka _ ?_ hdel
          intro i hi
          rcases List.mem_append.mp hi with hmem | hmem
          · exact hchan i hmem
          · rcases List.mem_singleton.mp hmem with rfl
            exact hitem
      · simp only [engineStep, hpc, hc, if_false]
        by_cases hroom : st.chan.length < chanCap
        · simp only [hroom, if_true]
          refine engineAfterSend_ka _ ?_ hdel
          intro i hi
          rcases List.mem_append.mp hi with hmem | hmem
          · exact hchan i hmem
          · rcases List.mem_singleton.mp hmem with rfl
            exact hitem
        · simp only [hroom, if_false]
          exact ⟨hchan, hdel, fun hx => hsend (hpc ▸ hx)⟩
    · -- terminated
      simp only [engineStep, hpc]
      exact ⟨hchan, hdel, fun hx => hsend (hpc ▸ hx)⟩
  | nextEvents pickDone =>
    by_cases hc : st.cancelled
    · simp only [engineStep, hc, if_true]
      rcases hch : st.chan with _ | ⟨c, rest⟩
      · exact ⟨hchan, hdel, fun hx => hsend hx⟩
      · by_cases hpick : pickDone
        · simp only [hpick, if_true]
          exact ⟨hchan, hdel, fun hx => hsend hx⟩
        · simp only [hpick, if_false]
          refine ⟨?_, ?_, fun hx => hsend hx⟩
          · intro i hi
            exact hchan i (hch ▸ List.mem_cons_of_mem c hi)
          · intro i hi
            rcases List.mem_append.mp hi with hmem | hmem
            · exact hdel i hmem
            · rcases List.mem_singleton.mp hmem with rfl
              exact hchan i (hch ▸ List.mem_cons_self i rest)
    · simp only [engineStep, hc, if_false]
      rcases hch : st.chan with _ | ⟨c, rest⟩
      · exact ⟨hchan, hdel, fun hx => hsend hx⟩
      · refine ⟨?_, ?_, fun hx => hsend hx⟩
        · intro i hi
          exact hchan i (hch ▸ List.mem_cons_of_mem c hi)
        · intro i hi
          rcases List.mem_append.mp hi with hmem | hmem
          · exact hdel i hmem
          · rcases List.mem_singleton.mp hmem with rfl
            exact hchan i (hch ▸ List.mem_cons_self i rest)

theorem engineRun_ka (acts : List EngineAction) (st : EngineState)
    (h : EngineKAInv st) : EngineKAInv (engineRun st acts) := by
  induction acts generalizing st with
  | nil => exact h
  | cons a rest ih => exact ih (engineStep st a) (engineStep_ka st a h)

/-- C2: keep-alive suppression.  A batch line whose envelope has no events
field (or a null one) makes the reader return nil events, and the stream
engine never puts such a batch on the event channel nor delivers one through
NextEvents. -/
theorem keep_alive_suppression :
    (∀ (s : simpleStream) (body : Body) (parsed : Cursor),
      s.closedBuf = false →
      goUnmarshalBatch body = .ok parsed →
      (jsonparserGet body "events" = .ok .notExist ∨
        jsonparserGet body "events" = .ok .null) →
      s.nextEvents (.ok body) =
        .ok ({ parsed with nakadiStreamID := s.nakadiStreamID }, none)) ∧
    (∀ (pending : List eventsOrError) (acts : List EngineAction),
      (∀ i ∈ (engineRun (engineInit pending) acts).chan, keepAliveFree i) ∧
      (∀ i ∈ (engineRun (engineInit pending) acts).deliveredItems,
        keepAliveFree i)) := by
  constructor
  · intro s body parsed hclosed hbatch hev
    unfold simpleStream.nextEvents
    rcases hev with hev | hev <;> simp [hclosed, hbatch, hev]
  · intro pending acts
    have hinit : EngineKAInv (engineInit pending) := by
      refine ⟨?_, ?_, ?_⟩
      · intro i hi
        cases hi
      · intro i hi
        cases hi
      · intro hx
        cases hx
    have h := engineRun_ka acts (engineInit pending) hinit
    exact ⟨h.1, h.2.1⟩

/-- C2 witness: a concrete keep-alive line yields nil events, and a concrete
engine run never delivers it. -/
theorem keep_alive_suppression_witness :
    simpleStream.nextEvents ⟨"sid-9", false⟩
        (.ok (.wellFormed (.obj [("cursor",
          .obj [("partition", .str "0"), ("offset", .str "7")])]))) =
      .ok (⟨"0", "7", "", "", "sid-9"⟩, none) ∧
    (∀ i ∈ (engineRun (engineInit [⟨Cursor.zero, none, none⟩])
        [.workerStep false, .nextEvents false]).deliveredItems,
      keepAliveFree i) := by
  constructor
  · exact keep_alive_suppression.1 ⟨"sid-9", false⟩
      (.wellFormed (.obj [("cursor",
        .obj [("partition", .str "0"), ("offset", .str "7")])]))
      ⟨"0", "7", "", "", ""⟩ rfl rfl (Or.inl rfl)
  · exact (keep_alive_suppression.2 [⟨Cursor.zero, none, none⟩]
      [.workerStep false, .nextEvents false]).2

/-- How many further enqueues the worker can still perform once the context
is cancelled: the send in flight, plus one final context.Canceled item when
the in-flight item is not itself terminal. -/
def workerBudget : WorkerPC → Option GoErr → Nat
  | .terminated, _ => 0
  | .atRead, _ => 1
  | .atSend, none => 2
  | .atSend, some .canceled => 1
  | .atSend, some (.other _) => 2

/-- Invariant tying the post-close ghost counters to the channel: the channel
respects its capacity; before close nothing post-close happened; after close
the worker enqueues at most its remaining budget, and everything delivered
post-close came from the queue present at close plus the post-close
enqueues. -/
def EngineCloseInv (st : EngineState) : Prop :=
  st.chan.length ≤ chanCap ∧
  (st.cancelled = false →
    st.postCloseEnq = 0 ∧ st.postCloseDeliv = 0 ∧ st.qlenAtClose = 0) ∧
  (st.cancelled = true →
    st.postCloseEnq + workerBudget st.pc st.err ≤ 2 ∧
    st.postCloseDeliv + st.chan.length ≤ st.qlenAtClose + st.postCloseEnq ∧
    st.qlenAtClose ≤ chanCap)


theorem engineStep_closeInv (st : EngineState) (a : EngineAction)
    (h : EngineCloseInv st) : EngineCloseInv (engineStep st a) := by
  obtain ⟨cancelled, chan, chanClosed, pc, cursor, events, err, pending,
    delivered, enq, deliv, qlen⟩ := st
  simp only [EngineCloseInv, chanCap] at h
  obtain ⟨hcap, hfalse, htrue⟩ := h
  cases a with
  | close =>
    cases cancelled
    · obtain ⟨he, hd, hq⟩ := hfalse rfl
      subst he
      subst hd
      subst hq
      rcases pc with _ | _ | _ <;>
        rcases err with _ | e <;>
        (try cases e) <;>
        simp [engineStep, EngineCloseInv, workerBudget, chanCap] <;>
        omega
    · obtain ⟨hb, hcount, hqcap⟩ := htrue rfl
      simp [engineStep, EngineCloseInv, chanCap]
      exact ⟨hcap, hb, hcount, hqcap⟩
  | workerStep pickDone =>
    cases cancelled
    · obtain ⟨he, hd, hq⟩ := hfalse rfl
      subst he
      subst hd
      subst hq
      rcases pc with _ | _ | _
      · rcases pending with _ | ⟨r, rest⟩
        · simp [engineStep, EngineCloseInv, chanCap]
          omega
        · by_cases hka : r.err = none ∧ eventsLen r.events = 0 <;>
            simp [engineStep, EngineCloseInv, chanCap, hka] <;>
            omega
      · by_cases hroom : chan.length < 10
        · rcases err with _ | e <;> (try cases e) <;>
            simp [engineStep, engineAfterSend, EngineCloseInv, chanCap, hroom] <;>
            omega
        · simp [engineStep, EngineCloseInv, chanCap, hroom]
          omega
      · simp [engineStep, EngineCloseInv, chanCap]
        omega
    · obtain ⟨hb, hcount, hqcap⟩ := htrue rfl
      rcases pc with _ | _ | _
      · -- atRead under cancellation: err := Canceled, move to the send
        simp only [workerBudget] at hb
        simp [engineStep, EngineCloseInv, workerBudget, chanCap]
        exact ⟨hcap, by omega, hcount, hqcap⟩
      · -- atSend under cancellation
        cases pickDone
        · by_cases hroom : chan.length < 10
          · rcases err with _ | e <;> (try cases e) <;>
              simp only [workerBudget] at hb <;>
              simp [engineStep, engineAfterSend, EngineCloseInv, workerBudget,
                chanCap, hroom] <;>
              omega
          · rcases err with _ | e <;> (try cases e) <;>
              simp only [workerBudget] at hb <;>
              simp [engineStep, EngineCloseInv, workerBudget, chanCap, hroom] <;>
              omega
        · rcases err with _ | e <;> (try cases e) <;>
            simp only [workerBudget] at hb <;>
            simp [engineStep, EngineCloseInv, workerBudget, chanCap] <;>
            omega
      · -- terminated
        simp only [workerBudget] at hb
        simp [engineStep, EngineCloseInv, workerBudget, chanCap]
        exact ⟨hcap, by omega, hcount, hqcap⟩
  | nextEvents pickDone =>
    cases cancelled
    · obtain ⟨he, hd, hq⟩ := hfalse rfl
      subst he
      subst hd
      subst hq
      rcases chan with _ | ⟨c, rest⟩ <;>
        simp [engineStep, EngineCloseInv, chanCap] at hcap ⊢ <;>
        omega
    · obtain ⟨hb, hcount, hqcap⟩ := htrue rfl
      rcases chan with _ | ⟨c, rest⟩
      · exact ⟨hcap, by intro hx; simp [engineStep] at hx,
          fun _ => ⟨hb, hcount, hqcap⟩⟩
      · cases pickDone
        · refine ⟨?_, ?_, ?_⟩
          · have h1 : (c :: rest).length ≤ 10 := hcap
            simp only [List.length_cons] at h1
            show rest.length ≤ 10
            omega
          · intro hx
            simp [engineStep] at hx
          · intro _
            refine ⟨hb, ?_, hqcap⟩
            have h2 : deliv + (c :: rest).length ≤ qlen + enq := hcount
            simp only [List.length_cons] at h2
            show deliv + 1 + rest.length ≤ qlen + enq
            omega
        · exact ⟨hcap, by intro hx; simp [engineStep] at hx,
            fun _ => ⟨hb, hcount, hqcap⟩⟩

theorem engineRun_closeInv (acts : List EngineAction) (st : EngineState)
    (h : EngineCloseInv st) : EngineCloseInv (engineRun st acts) := by
  induction acts generalizing st with
  | nil => exact h
  | cons a rest ih => exact ih (engineStep st a) (engineStep_closeInv st a h)

/-- C7 (amended): after Close, the worker enqueues at most two further items
(an in-flight item and a final context.Canceled item) before closing the
channel and terminating, and every batch NextEvents still delivers after
Close comes from the items queued at close time (bounded by the channel
capacity of 10) plus those late enqueues; all other NextEvents calls return
the cancellation sentinel (or the channel's zero value once it is closed). -/
theorem engine_after_close_bounds (pending : List eventsOrError)
    (acts : List EngineAction) :
    (engineRun (engineInit pending) acts).postCloseEnq ≤ 2 ∧
    (engineRun (engineInit pending) acts).postCloseDeliv ≤
      (engineRun (engineInit pending) acts).qlenAtClose +
        (engineRun (engineInit pending) acts).postCloseEnq ∧
    (engineRun (engineInit pending) acts).qlenAtClose ≤ chanCap := by
  have hinit : EngineCloseInv (engineInit pending) := by
    refine ⟨by simp [engineInit, chanCap], fun _ => ⟨rfl, rfl, rfl⟩, ?_⟩
    intro hx
    simp [engineInit] at hx
  have h := engineRun_closeInv acts (engineInit pending) hinit
  obtain ⟨hcap, hfalse, htrue⟩ := h
  cases hc : (engineRun (engineInit pending) acts).cancelled
  · obtain ⟨he, hd, hq⟩ := hfalse hc
    refine ⟨by omega, by omega, ?_⟩
    rw [hq]
    exact Nat.zero_le _
  · obtain ⟨hb, hcount, hqcap⟩ := htrue hc
    refine ⟨by omega, by omega, hqcap⟩

/-- C7 counterexample: with two batches already queued when Close is called,
two subsequent NextEvents calls both deliver a queued batch, so more than one
already-queued batch is delivered after close. -/
theorem engine_after_close_cex :
    ¬((engineRun (engineInit
        [⟨Cursor.zero, some "[1]", none⟩, ⟨Cursor.zero, some "[2]", none⟩])
        [.workerStep false, .workerStep false, .workerStep false,
         .workerStep false, .close, .nextEvents false,
         .nextEvents false]).postCloseDeliv ≤ 1) := by
  decide

/-- Loop invariant of dispatchThread: with no deadline pending the batch is
empty, and the batch never exceeds the maximum size. -/
def DInv (maxBatchSize : Int) (st : DState) : Prop :=
  (st.deadlineSet = false → st.batch = []) ∧
  (st.batch.length : Int) ≤ maxBatchSize

theorem dispatchStep_inv (maxBatchSize : Int) (st : DState) (i : DispatchIn)
    (hmax : 1 ≤ maxBatchSize) (h : DInv maxBatchSize st) :
    DInv maxBatchSize (dispatchStep maxBatchSize st i).1 ∧
    ∀ b ∈ (dispatchStep maxBatchSize st i).2.1,
      (b.length : Int) ≤ maxBatchSize := by
  obtain ⟨batch, ds⟩ := st
  obtain ⟨hempty, hlen⟩ := h
  simp only at hempty hlen
  cases ds
  · have hb : batch = [] := hempty rfl
    subst hb
    cases i <;>
      simp [dispatchStep, DInv, flushOut] <;>
      omega
  · by_cases hfull : maxBatchSize ≤ (batch.length : Int)
    · cases i <;>
        simp [dispatchStep, DInv, flushOut, hfull] <;>
        exact ⟨by omega, fun _ => hlen⟩
    · cases i <;>
        simp [dispatchStep, DInv, flushOut, hfull] <;>
        omega

theorem dispatchRun_inv (maxBatchSize : Int) (hmax : 1 ≤ maxBatchSize) :
    ∀ (ins : List DispatchIn) (st : DState), DInv maxBatchSize st →
      ∀ b ∈ dispatchRun maxBatchSize st ins,
        (b.length : Int) ≤ maxBatchSize := by
  intro ins
  induction ins with
  | nil =>
    intro st _ b hb
    cases hb
  | cons i rest ih =>
    intro st hst b hb
    obtain ⟨hst1, hflush⟩ := dispatchStep_inv maxBatchSize st i hmax hst
    simp only [dispatchRun] at hb
    by_cases hexit : (dispatchStep maxBatchSize st i).2.2 = true
    · rw [if_pos hexit] at hb
      exact hflush b hb
    · rw [if_neg hexit] at hb
      rcases List.mem_append.mp hb with hmem | hmem
      · exact hflush b hmem
      · exact ih (dispatchStep maxBatchSize st i).1 hst1 b hmem

/-- C5: every batch flushed by the dispatch loop holds at most MaxBatchSize
events, and publishing a flushed batch hands the single resulting error (or
nil) exactly once to the result channel of every event in the batch. -/
theorem batcher_size_bound_and_fanout (maxBatchSize : Int)
    (hmax : 1 ≤ maxBatchSize) (ins : List DispatchIn)
    (pub : List String → Option String) :
    ∀ b ∈ dispatchRun maxBatchSize ⟨[], false⟩ ins,
      (b.length : Int) ≤ maxBatchSize ∧
      (publishBatchToNakadi pub b).2 =
        b.map (fun evt => (evt.chanId, (publishBatchToNakadi pub b).1)) := by
  intro b hb
  refine ⟨?_, rfl⟩
  exact dispatchRun_inv maxBatchSize hmax ins ⟨[], false⟩
    ⟨fun _ => rfl, by simp; omega⟩ b hb

/-- C5 witness: max batch size 2 over four observed inputs flushes two
batches of sizes 2 and 1; the first flush fans its single result out to both
participants. -/
theorem batcher_size_bound_and_fanout_witness :
    ((([⟨0, "a"⟩, ⟨1, "b"⟩] : List eventToPublish).length : Int) ≤ 2 ∧
      (publishBatchToNakadi (fun _ => none)
          ([⟨0, "a"⟩, ⟨1, "b"⟩] : List eventToPublish)).2 =
        ([⟨0, "a"⟩, ⟨1, "b"⟩] : List eventToPublish).map (fun evt => (evt.chanId,
          (publishBatchToNakadi (fun _ => none)
            ([⟨0, "a"⟩, ⟨1, "b"⟩] : List eventToPublish)).1))) :=
  batcher_size_bound_and_fanout 2 (by decide)
    [.arrive ⟨0, "a"⟩, .arrive ⟨1, "b"⟩, .arrive ⟨2, "c"⟩, .expire]
    (fun _ => none) [⟨0, "a"⟩, ⟨1, "b"⟩] (by decide)
